import Mathlib

set_option maxRecDepth 10000

/-!
Verification of the `bowlby` container parser (`src/model_file.rs`).

The parser reads an "APRILMDL" speech-model container from a seekable byte
source.  We embed the byte source as a list of bytes (`Nat`, each value a
byte) together with a cursor position; every fallible read returns
`Except ParseError`.  Rust `assert!` macros abort the process rather than
returning an error, so assertion failures are modelled by the dedicated
constructor `ParseError.assertFailed`, kept distinct from the recoverable
errors (`truncated`, `invalidUtf8`, `noVariantMatch`) that the Rust code
returns to its caller through `?` on `Result`.

Machine integers are modelled as `Nat`/`Int` with explicit reduction
modulo `2 ^ 32` / `2 ^ 64`; `usize` casts of `i32` values follow the
64-bit sign-extension semantics of `as usize`.
-/

namespace Bowlby

/-- A seekable byte source: the full data and the current cursor position,
mirroring the `Read + Seek` cursor of the Rust code. -/
structure Cursor where
  data : List Nat
  pos : Nat
deriving DecidableEq

/-- Which parameter-block assertion fired (the Rust code names the field in
the `assert!` condition text). -/
inductive FieldName
  | num_networks
  | batch_size
  | segment_size
  | segment_step
  | mel_features
  | sample_rate
  | token_count
  | blank_id
  | frame_shift_ms
  | frame_length_ms
  | mel_low
  | mel_high
deriving DecidableEq

/-- Outcomes of a failed parse.  `truncated` models `io::ErrorKind::UnexpectedEof`
from `read_exact`/`binread`; `invalidUtf8` models `Utf8Error`; `noVariantMatch`
models `binread::Error::NoVariantMatch` for the `#[br(repr = u32)]` enum;
`assertFailed` models a Rust `assert!` panic (a process abort, not a
recoverable error value returned to the caller); `capacityOverflow` models
the panic of `vec![0; n]` when `n` exceeds `isize::MAX` — like `assertFailed`
a process abort, not a recoverable error. -/
inductive ParseError
  | truncated
  | invalidUtf8
  | noVariantMatch
  | assertFailed (field : FieldName)
  | capacityOverflow
deriving DecidableEq

instance instDecEqExcept {ε α : Type} [DecidableEq ε] [DecidableEq α] :
    DecidableEq (Except ε α) := fun a b =>
  match a, b with
  | .ok x, .ok y =>
    if h : x = y then .isTrue (by rw [h]) else .isFalse (by simp [h])
  | .error x, .error y =>
    if h : x = y then .isTrue (by rw [h]) else .isFalse (by simp [h])
  | .ok _, .error _ => .isFalse (by simp)
  | .error _, .ok _ => .isFalse (by simp)

/-- `read_exact` / fixed-size `binread` read: take exactly `n` bytes at the
cursor, failing when fewer remain (a seek past the end simply leaves the
cursor beyond the data, and the next read fails). -/
def readBytes (c : Cursor) (n : Nat) : Except ParseError (List Nat × Cursor) :=
  if c.pos + n ≤ c.data.length then
    .ok ((c.data.drop c.pos).take n, ⟨c.data, c.pos + n⟩)
  else
    .error .truncated

/-- Little-endian value of a byte list (each entry reduced to a byte). -/
def decLE : List Nat → Nat
  | [] => 0
  | b :: rest => b % 256 + 256 * decLE rest

/-- Decode 4 bytes as an unsigned 32-bit little-endian integer. -/
def readU32 (c : Cursor) : Except ParseError (Nat × Cursor) := do
  let (bs, c) ← readBytes c 4
  pure (decLE bs % 2 ^ 32, c)

/-- Decode 8 bytes as an unsigned 64-bit little-endian integer. -/
def readU64 (c : Cursor) : Except ParseError (Nat × Cursor) := do
  let (bs, c) ← readBytes c 8
  pure (decLE bs % 2 ^ 64, c)

/-- Two's-complement reading of a 32-bit word. -/
def i32OfNat (n : Nat) : Int :=
  if n % 2 ^ 32 < 2 ^ 31 then ((n % 2 ^ 32 : Nat) : Int)
  else ((n % 2 ^ 32 : Nat) : Int) - 2 ^ 32

/-- Decode 4 bytes as a signed 32-bit little-endian integer. -/
def readI32 (c : Cursor) : Except ParseError (Int × Cursor) := do
  let (bs, c) ← readBytes c 4
  pure (i32OfNat (decLE bs), c)

/-- The Rust `as usize` cast of an `i32` on a 64-bit target: sign-extend and
reinterpret, i.e. reduce modulo `2 ^ 64`. -/
def usizeOfI32 (i : Int) : Nat := (i % (2 : Int) ^ 64).toNat

/-- Rust `isize::MAX` on a 64-bit target.  `vec![0; n]` panics with
"capacity overflow" whenever `n` exceeds this bound, before any allocation
or read is attempted. -/
def isizeMax : Nat := 2 ^ 63 - 1

/-- Is `b` a UTF-8 continuation byte (`0x80..=0xBF`)? -/
def isCont (b : Nat) : Bool := 0x80 ≤ b && b ≤ 0xBF

/-- UTF-8 validity exactly as `str::from_utf8` checks it (RFC 3629: no
overlong forms, no surrogates, at most U+10FFFF). -/
def isValidUtf8 : List Nat → Bool
  | [] => true
  | b :: rest =>
    if b ≤ 0x7F then isValidUtf8 rest
    else if 0xC2 ≤ b && b ≤ 0xDF then
      match rest with
      | b2 :: r => isCont b2 && isValidUtf8 r
      | [] => false
    else if b = 0xE0 then
      match rest with
      | b2 :: b3 :: r => (0xA0 ≤ b2 && b2 ≤ 0xBF) && isCont b3 && isValidUtf8 r
      | _ => false
    else if (0xE1 ≤ b && b ≤ 0xEC) || b = 0xEE || b = 0xEF then
      match rest with
      | b2 :: b3 :: r => isCont b2 && isCont b3 && isValidUtf8 r
      | _ => false
    else if b = 0xED then
      match rest with
      | b2 :: b3 :: r => (0x80 ≤ b2 && b2 ≤ 0x9F) && isCont b3 && isValidUtf8 r
      | _ => false
    else if b = 0xF0 then
      match rest with
      | b2 :: b3 :: b4 :: r =>
        (0x90 ≤ b2 && b2 ≤ 0xBF) && isCont b3 && isCont b4 && isValidUtf8 r
      | _ => false
    else if 0xF1 ≤ b && b ≤ 0xF3 then
      match rest with
      | b2 :: b3 :: b4 :: r => isCont b2 && isCont b3 && isCont b4 && isValidUtf8 r
      | _ => false
    else if b = 0xF4 then
      match rest with
      | b2 :: b3 :: b4 :: r =>
        (0x80 ≤ b2 && b2 ≤ 0x8F) && isCont b3 && isCont b4 && isValidUtf8 r
      | _ => false
    else false

/-- Rust `str::trim_matches('\x00')`: remove NUL characters from BOTH the
start and the end of the string (in valid UTF-8, byte `0` occurs only as the
one-byte character U+0000, so this is exactly a byte-level trim). -/
def trimNul (bs : List Nat) : List Nat :=
  ((bs.dropWhile (· == 0)).reverse.dropWhile (· == 0)).reverse

/-- `read_string`: a `u64` length followed by that many bytes, decoded
strictly as UTF-8 (`String::from_utf8`).  A Rust `String` is modelled as its
UTF-8 byte list. -/
def read_string (c : Cursor) : Except ParseError (List Nat × Cursor) := do
  let (size, c) ← readU64 c
  let (buf, c) ← readBytes c size
  if isValidUtf8 buf then pure (buf, c) else .error .invalidUtf8

/-- `const MAX_NETWORKS: u64 = 8`. -/
def MAX_NETWORKS : Nat := 8

/-- The three declared variants of the `#[br(repr = u32)]` enum `ModelType`. -/
inductive ModelType
  | ModelUnknown
  | ModelLstmTransducerStateless
  | ModelMax
deriving DecidableEq

/-- The `u32` discriminant of each `ModelType` variant. -/
def ModelType.tag : ModelType → Nat
  | .ModelUnknown => 0
  | .ModelLstmTransducerStateless => 1
  | .ModelMax => 2

/-- Reading a `ModelType`: `binread` reads the `u32` repr and matches it
against the declared discriminants, failing with `NoVariantMatch` otherwise. -/
def readModelType (c : Cursor) : Except ParseError (ModelType × Cursor) := do
  let (v, c) ← readU32 c
  if v = 0 then pure (.ModelUnknown, c)
  else if v = 1 then pure (.ModelLstmTransducerStateless, c)
  else if v = 2 then pure (.ModelMax, c)
  else .error .noVariantMatch

/-- `ParamMetadata`: three `u64` fields read in order. -/
structure ParamMetadata where
  offset : Nat
  size : Nat
  num_networks : Nat
deriving DecidableEq

/-- Read the three `u64` fields of `ParamMetadata`. -/
def readParamMetadata (c : Cursor) : Except ParseError (ParamMetadata × Cursor) := do
  let (offset, c) ← readU64 c
  let (size, c) ← readU64 c
  let (nn, c) ← readU64 c
  pure (⟨offset, size, nn⟩, c)

/-- `NetworkDefinition`: an `(offset, size)` pair locating one blob. -/
structure NetworkDefinition where
  offset : Nat
  size : Nat
deriving DecidableEq

/-- `NetworkDefinition::read`: seek to the descriptor's own `offset` and read
exactly `size` bytes. -/
def NetworkDefinition.read (d : NetworkDefinition) (c : Cursor) :
    Except ParseError (List Nat × Cursor) :=
  readBytes ⟨c.data, d.offset⟩ d.size

/-- Read `n` consecutive `NetworkDefinition` records (the descriptor table). -/
def readNetworkDefs : Nat → Cursor → Except ParseError (List NetworkDefinition × Cursor)
  | 0, c => pure ([], c)
  | n + 1, c => do
    let (off, c) ← readU64 c
    let (sz, c) ← readU64 c
    let (ds, c) ← readNetworkDefs n c
    pure (⟨off, sz⟩ :: ds, c)

/-- Read each blob by its own descriptor, in descriptor order. -/
def readNetworks : List NetworkDefinition → Cursor → Except ParseError (List (List Nat) × Cursor)
  | [], c => pure ([], c)
  | d :: ds, c => do
    let (b, c) ← d.read c
    let (bs, c) ← readNetworks ds c
    pure (b :: bs, c)

/-- `PartialParams`: the raw fixed-layout parameter record, 8 reserved bytes
followed by thirteen `i32` fields in declaration order. -/
structure PartialParams where
  batch_size : Int
  segment_size : Int
  segment_step : Int
  mel_features : Int
  sample_rate : Int
  frame_shift_ms : Int
  frame_length_ms : Int
  round_pow2 : Int
  mel_low : Int
  mel_high : Int
  snip_edges : Int
  token_count : Int
  blank_id : Int
deriving DecidableEq

/-- Read the `PartialParams` record (reserved 8-byte field discarded). -/
def readPartialParams (c : Cursor) : Except ParseError (PartialParams × Cursor) := do
  let (_reserved, c) ← readBytes c 8
  let (batch_size, c) ← readI32 c
  let (segment_size, c) ← readI32 c
  let (segment_step, c) ← readI32 c
  let (mel_features, c) ← readI32 c
  let (sample_rate, c) ← readI32 c
  let (frame_shift_ms, c) ← readI32 c
  let (frame_length_ms, c) ← readI32 c
  let (round_pow2, c) ← readI32 c
  let (mel_low, c) ← readI32 c
  let (mel_high, c) ← readI32 c
  let (snip_edges, c) ← readI32 c
  let (token_count, c) ← readI32 c
  let (blank_id, c) ← readI32 c
  pure (⟨batch_size, segment_size, segment_step, mel_features, sample_rate,
         frame_shift_ms, frame_length_ms, round_pow2, mel_low, mel_high,
         snip_edges, token_count, blank_id⟩, c)

/-- A Rust `assert!`: continue when the condition holds, abort (modelled as
`ParseError.assertFailed`) otherwise. -/
def rassert (p : Prop) [Decidable p] (f : FieldName) : Except ParseError Unit :=
  if p then pure () else .error (.assertFailed f)

/-- One vocabulary entry: an `i32` byte length (cast to `usize` with no sign
check), then `vec![0; token_len as usize]` allocates the scratch buffer —
a request above `isize::MAX` bytes, which every negative `token_len` becomes
after sign extension, panics with "capacity overflow" before anything is
read — then `read_exact` fills exactly that many bytes, UTF-8 decoded and
`trim_matches('\x00')`-trimmed. -/
def readToken (c : Cursor) : Except ParseError (List Nat × Cursor) := do
  let (token_len, c) ← readI32 c
  if isizeMax < usizeOfI32 token_len then
    .error .capacityOverflow
  else do
    let (buf, c) ← readBytes c (usizeOfI32 token_len)
    if isValidUtf8 buf then pure (trimNul buf, c) else .error .invalidUtf8

/-- The vocabulary loop `for _ in 0..token_count`. -/
def readTokens : Nat → Cursor → Except ParseError (List (List Nat) × Cursor)
  | 0, c => pure ([], c)
  | n + 1, c => do
    let (t, c) ← readToken c
    let (ts, c) ← readTokens n c
    pure (t :: ts, c)

/-- The fully parsed parameter block (`Params`), owning the vocabulary and
the raw network blobs. -/
structure Params where
  batch_size : Int
  segment_size : Int
  segment_step : Int
  mel_features : Int
  sample_rate : Int
  frame_shift_ms : Int
  frame_length_ms : Int
  round_pow2 : Bool
  mel_low : Int
  mel_high : Int
  snip_edges : Bool
  blank_id : Int
  networks : List (List Nat)
  tokens : List (List Nat)
deriving DecidableEq

/-- `ParamMetadata::parse`: descriptor table, seek to the parameter block,
assertion checks in source order, vocabulary, then every blob. -/
def ParamMetadata.parse (pm : ParamMetadata) (c : Cursor) :
    Except ParseError (Params × Cursor) := do
  rassert (pm.num_networks ≤ MAX_NETWORKS) .num_networks
  let (defs, c) ← readNetworkDefs pm.num_networks c
  let c : Cursor := ⟨c.data, pm.offset⟩
  let (pp, c) ← readPartialParams c
  rassert (pp.batch_size = 1) .batch_size
  rassert (0 < pp.segment_size ∧ pp.segment_size < 100) .segment_size
  rassert (0 < pp.segment_step ∧ pp.segment_step < 100 ∧
    pp.segment_step ≤ pp.segment_size) .segment_step
  rassert (0 < pp.mel_features ∧ pp.mel_features < 256) .mel_features
  rassert (0 < pp.sample_rate ∧ pp.sample_rate < 144000) .sample_rate
  rassert (0 < pp.token_count ∧ pp.token_count < 16384) .token_count
  rassert (0 ≤ pp.blank_id ∧ pp.blank_id < pp.token_count) .blank_id
  rassert (0 < pp.frame_shift_ms ∧ pp.frame_shift_ms ≤ pp.frame_length_ms) .frame_shift_ms
  rassert (0 < pp.frame_length_ms ∧ pp.frame_length_ms ≤ 5000) .frame_length_ms
  rassert (0 < pp.mel_low ∧ pp.mel_low < pp.sample_rate) .mel_low
  rassert (pp.mel_high = 0 ∨ pp.mel_low < pp.mel_high) .mel_high
  let (tokens, c) ← readTokens pp.token_count.toNat c
  let (networks, c) ← readNetworks defs c
  pure ({ batch_size := pp.batch_size
          segment_size := pp.segment_size
          segment_step := pp.segment_step
          mel_features := pp.mel_features
          sample_rate := pp.sample_rate
          frame_shift_ms := pp.frame_shift_ms
          frame_length_ms := pp.frame_length_ms
          round_pow2 := pp.round_pow2 ≠ 0
          mel_low := pp.mel_low
          mel_high := pp.mel_high
          snip_edges := pp.snip_edges ≠ 0
          blank_id := pp.blank_id
          networks := networks
          tokens := tokens }, c)

/-- `ModelFileHeader`: magic bytes, version, declared header size. -/
structure ModelFileHeader where
  aprilmdl : List Nat
  version : Nat
  header_size : Nat
deriving DecidableEq

/-- Read the `ModelFileHeader` fields.  Note: the magic bytes are read into
the `aprilmdl` field but NEVER compared against anything. -/
def readModelFileHeader (c : Cursor) : Except ParseError (ModelFileHeader × Cursor) := do
  let (m, c) ← readBytes c 8
  let (v, c) ← readU32 c
  let (h, c) ← readU64 c
  pure (⟨m, v, h⟩, c)

/-- The top-level parsed model descriptor (`ModelFile`). -/
structure ModelFile where
  version : Nat
  language : List Nat
  name : List Nat
  description : List Nat
  model_type : ModelType
  params : Params
deriving DecidableEq

/-- `ModelFile::new`: the whole parse, in source order. -/
def ModelFile.new (c : Cursor) : Except ParseError (ModelFile × Cursor) := do
  let (file_header, c) ← readModelFileHeader c
  let (langBytes, c) ← readBytes c 8
  let language ←
    if isValidUtf8 langBytes then pure (trimNul langBytes)
    else (.error .invalidUtf8 : Except ParseError (List Nat))
  let (name, c) ← read_string c
  let (description, c) ← read_string c
  let (model_type, c) ← readModelType c
  let (pmeta, c) ← readParamMetadata c
  let (params, c) ← pmeta.parse c
  pure ({ version := file_header.version
          language := language
          name := name
          description := description
          model_type := model_type
          params := params }, c)

/-- Parse a container from the start of a byte list, keeping the descriptor. -/
def parseModel (data : List Nat) : Except ParseError ModelFile :=
  (ModelFile.new ⟨data, 0⟩).map Prod.fst

/-! ### Serialization

Modelled from the spec: the repository contains no serializer; the spec's
round-trip property posits "a serializer that reproduces the documented
binary layout exactly", so `serializeG` below follows the documented layout
(spec section 6) word for word: header, language tag, two length-prefixed
strings, model-type tag, parameter metadata, network descriptor table,
then — at `param_offset` — the reserved 8-byte field, the thirteen `i32`
parameter fields in declaration order, the vocabulary, and finally each
network blob at the offset its descriptor declares. -/

/-- Little-endian encoding of `v` in exactly `w` bytes. -/
def enc : Nat → Nat → List Nat
  | 0, _ => []
  | w + 1, v => v % 256 :: enc w (v / 256)

/-- 4-byte little-endian encoding of an unsigned value. -/
def enc32 (v : Nat) : List Nat := enc 4 v

/-- 8-byte little-endian encoding of an unsigned value. -/
def enc64 (v : Nat) : List Nat := enc 8 v

/-- 4-byte little-endian two's-complement encoding of a signed value. -/
def enc32i (i : Int) : List Nat := enc 4 (i % (2 : Int) ^ 32).toNat

/-- The ASCII bytes of `"APRILMDL"`. -/
def aprilMagic : List Nat := [65, 80, 82, 73, 76, 77, 68, 76]

/-- NUL-pad the language code to its fixed 8-byte field. -/
def padLanguage (l : List Nat) : List Nat := l ++ List.replicate (8 - l.length) 0

/-- Encode the vocabulary: each token as an `i32` byte length then its bytes. -/
def encTokens : List (List Nat) → List Nat
  | [] => []
  | t :: ts => enc32i (t.length : Int) ++ (t ++ encTokens ts)

/-- Encode the descriptor table for blobs laid out contiguously from `base`. -/
def encDescs (base : Nat) : List (List Nat) → List Nat
  | [] => []
  | b :: bs => enc64 base ++ (enc64 b.length ++ encDescs (base + b.length) bs)

/-- The descriptors `encDescs` writes, as parsed records. -/
def descList (base : Nat) : List (List Nat) → List NetworkDefinition
  | [] => []
  | b :: bs => ⟨base, b.length⟩ :: descList (base + b.length) bs

/-- Concatenate the blobs in descriptor order. -/
def encBlobs : List (List Nat) → List Nat
  | [] => []
  | b :: bs => b ++ encBlobs bs

/-- The raw `PartialParams` record a descriptor corresponds to (booleans
re-encoded as `0`/`1`, `token_count` recovered from the vocabulary length). -/
def ppOf (m : ModelFile) : PartialParams :=
  { batch_size := m.params.batch_size
    segment_size := m.params.segment_size
    segment_step := m.params.segment_step
    mel_features := m.params.mel_features
    sample_rate := m.params.sample_rate
    frame_shift_ms := m.params.frame_shift_ms
    frame_length_ms := m.params.frame_length_ms
    round_pow2 := if m.params.round_pow2 then 1 else 0
    mel_low := m.params.mel_low
    mel_high := m.params.mel_high
    snip_edges := if m.params.snip_edges then 1 else 0
    token_count := (m.params.tokens.length : Int)
    blank_id := m.params.blank_id }

/-- Encode a `PartialParams` record: 8 reserved zero bytes then the thirteen
`i32` fields in declaration order. -/
def encPartialParams (pp : PartialParams) : List Nat :=
  List.replicate 8 0 ++
  (enc32i pp.batch_size ++ (enc32i pp.segment_size ++ (enc32i pp.segment_step ++
  (enc32i pp.mel_features ++ (enc32i pp.sample_rate ++ (enc32i pp.frame_shift_ms ++
  (enc32i pp.frame_length_ms ++ (enc32i pp.round_pow2 ++ (enc32i pp.mel_low ++
  (enc32i pp.mel_high ++ (enc32i pp.snip_edges ++ (enc32i pp.token_count ++
  enc32i pp.blank_id))))))))))))

/-- Everything before the parameter-metadata descriptor: header, language
tag, the two length-prefixed strings and the model-type tag. -/
def headerPart (magic : List Nat) (header_size tag : Nat) (m : ModelFile) : List Nat :=
  magic ++ (enc32 m.version ++ (enc64 header_size ++
    (padLanguage m.language ++
    (enc64 m.name.length ++ (m.name ++
    (enc64 m.description.length ++ (m.description ++
    enc32 tag)))))))

/-- Byte position of the parameter block: right after the header fields, the
24-byte parameter metadata and the 16-byte-per-network descriptor table. -/
def paramOffsetOf (magic : List Nat) (header_size tag : Nat) (m : ModelFile) : Nat :=
  (headerPart magic header_size tag m).length + 24 + 16 * m.params.networks.length

/-- Byte position of the first network blob: right after the 60-byte fixed
parameter record and the vocabulary. -/
def blobBaseOf (magic : List Nat) (header_size tag : Nat) (m : ModelFile) : Nat :=
  paramOffsetOf magic header_size tag m + 60 + (encTokens m.params.tokens).length

/-- General serializer: the documented layout with an arbitrary 8-byte magic
field, declared header size and raw model-type tag (the descriptor itself
does not store these bytes, so they are parameters). -/
def serializeG (magic : List Nat) (header_size : Nat) (tag : Nat) (m : ModelFile) : List Nat :=
  headerPart magic header_size tag m ++
  (enc64 (paramOffsetOf magic header_size tag m) ++ (enc64 0 ++
  (enc64 m.params.networks.length ++
  (encDescs (blobBaseOf magic header_size tag m) m.params.networks ++
  (encPartialParams (ppOf m) ++
  (encTokens m.params.tokens ++
  encBlobs m.params.networks))))))

/-- The serializer of the round-trip property: correct magic, header size 0
(read but never validated), and the descriptor's own model-type tag. -/
def serialize (m : ModelFile) : List Nat := serializeG aprilMagic 0 m.model_type.tag m

/-- A byte list that survives `trim_matches('\x00')` unchanged: empty, or
with a non-NUL byte at each end. -/
def trimFree : List Nat → Bool
  | [] => true
  | b :: rest => b != 0 && (b :: rest).getLast? != some 0

/-- The parameter-block invariants the parser asserts, stated of the decoded
`Params` record. -/
def validParams (p : Params) : Prop :=
  p.batch_size = 1 ∧
  0 < p.segment_size ∧ p.segment_size < 100 ∧
  0 < p.segment_step ∧ p.segment_step < 100 ∧ p.segment_step ≤ p.segment_size ∧
  0 < p.mel_features ∧ p.mel_features < 256 ∧
  0 < p.sample_rate ∧ p.sample_rate < 144000 ∧
  0 < p.frame_shift_ms ∧ p.frame_shift_ms ≤ p.frame_length_ms ∧
  0 < p.frame_length_ms ∧ p.frame_length_ms ≤ 5000 ∧
  0 < p.mel_low ∧ p.mel_low < p.sample_rate ∧
  (p.mel_high = 0 ∨ p.mel_low < p.mel_high) ∧
  p.mel_high < 2 ^ 31

instance (p : Params) : Decidable (validParams p) := by
  unfold validParams; infer_instance

/-- A valid model descriptor: every structural invariant the parser checks,
plus the representability conditions (field widths, NUL-free string ends)
under which the documented layout can encode the descriptor at all. -/
def ValidModel (m : ModelFile) : Prop :=
  m.version < 2 ^ 32 ∧
  m.language.length ≤ 8 ∧
  isValidUtf8 (padLanguage m.language) = true ∧
  trimFree m.language = true ∧
  isValidUtf8 m.name = true ∧ m.name.length < 2 ^ 32 ∧
  isValidUtf8 m.description = true ∧ m.description.length < 2 ^ 32 ∧
  validParams m.params ∧
  m.params.networks.length ≤ 8 ∧
  (∀ b ∈ m.params.networks, b.length < 2 ^ 32) ∧
  0 < m.params.tokens.length ∧ m.params.tokens.length < 16384 ∧
  (∀ t ∈ m.params.tokens, isValidUtf8 t = true ∧ t.length < 2 ^ 31 ∧ trimFree t = true) ∧
  0 ≤ m.params.blank_id ∧ m.params.blank_id < (m.params.tokens.length : Int)

instance (m : ModelFile) : Decidable (ValidModel m) := by
  unfold ValidModel; infer_instance

/-- Final cursor position after reading a list of network blobs in
descriptor order starting from position `p`. -/
def netsEndPos (p : Nat) : List NetworkDefinition → Nat
  | [] => p
  | d :: ds => netsEndPos (d.offset + d.size) ds

/-- Every field of a raw parameter record lies in `i32` range. -/
def I32Range (pp : PartialParams) : Prop :=
  -2 ^ 31 ≤ pp.batch_size ∧ pp.batch_size < 2 ^ 31 ∧
  -2 ^ 31 ≤ pp.segment_size ∧ pp.segment_size < 2 ^ 31 ∧
  -2 ^ 31 ≤ pp.segment_step ∧ pp.segment_step < 2 ^ 31 ∧
  -2 ^ 31 ≤ pp.mel_features ∧ pp.mel_features < 2 ^ 31 ∧
  -2 ^ 31 ≤ pp.sample_rate ∧ pp.sample_rate < 2 ^ 31 ∧
  -2 ^ 31 ≤ pp.frame_shift_ms ∧ pp.frame_shift_ms < 2 ^ 31 ∧
  -2 ^ 31 ≤ pp.frame_length_ms ∧ pp.frame_length_ms < 2 ^ 31 ∧
  -2 ^ 31 ≤ pp.round_pow2 ∧ pp.round_pow2 < 2 ^ 31 ∧
  -2 ^ 31 ≤ pp.mel_low ∧ pp.mel_low < 2 ^ 31 ∧
  -2 ^ 31 ≤ pp.mel_high ∧ pp.mel_high < 2 ^ 31 ∧
  -2 ^ 31 ≤ pp.snip_edges ∧ pp.snip_edges < 2 ^ 31 ∧
  -2 ^ 31 ≤ pp.token_count ∧ pp.token_count < 2 ^ 31 ∧
  -2 ^ 31 ≤ pp.blank_id ∧ pp.blank_id < 2 ^ 31

instance (pp : PartialParams) : Decidable (I32Range pp) := by
  unfold I32Range; infer_instance

/-! ### Concrete example descriptors and containers used by the claims -/

/-- A small fully valid model descriptor: language `"en"`, name `"b"`, one
vocabulary token `"a"`, one two-byte network blob, every numeric field at a
minimal valid value. -/
def exModel : ModelFile :=
  { version := 1
    language := [101, 110]
    name := [98]
    description := []
    model_type := .ModelLstmTransducerStateless
    params :=
      { batch_size := 1, segment_size := 1, segment_step := 1, mel_features := 1
        sample_rate := 2, frame_shift_ms := 1, frame_length_ms := 1
        round_pow2 := false, mel_low := 1, mel_high := 0, snip_edges := false
        blank_id := 0, networks := [[7, 9]], tokens := [[97]] } }

/-- `exModel` with nine network blobs (declares `num_networks = 9`). -/
def exModel9 : ModelFile :=
  { exModel with params := { exModel.params with networks := List.replicate 9 [1] } }

/-- `exModel` with no network blobs (declares `num_networks = 0`). -/
def exModel0 : ModelFile :=
  { exModel with params := { exModel.params with networks := [] } }

/-- `exModel` with eight network blobs (declares `num_networks = 8`). -/
def exModel8 : ModelFile :=
  { exModel with params :=
    { exModel.params with networks := [[1], [2], [3], [4], [5], [6], [7], [8]] } }

/-- `exModel` with `segment_step = 50 > segment_size = 30`, everything else
in range. -/
def exModelStep : ModelFile :=
  { exModel with params :=
    { exModel.params with segment_size := 30, segment_step := 50 } }

/-- A container whose first 8 bytes are `"XXXXXXXX"` (not `"APRILMDL"`) but
which is otherwise exactly a well-formed serialization of `exModel`. -/
def badMagicInput : List Nat :=
  serializeG (List.replicate 8 88) 0 exModel.model_type.tag exModel

/-- A container that is exactly a well-formed serialization of `exModel`
except that its model-type tag field holds `3` (not a declared variant). -/
def badTagInput : List Nat :=
  serializeG aprilMagic 0 3 exModel

/-! ### Basic reduction lemmas -/

@[simp] lemma ok_bind {ε α β : Type} (a : α) (f : α → Except ε β) :
    (Except.ok a >>= f) = f a := rfl

@[simp] lemma error_bind {ε α β : Type} (e : ε) (f : α → Except ε β) :
    ((Except.error e : Except ε α) >>= f) = Except.error e := rfl

@[simp] lemma pure_eq_ok {ε α : Type} (a : α) : (pure a : Except ε α) = Except.ok a := rfl

lemma rassert_pos {p : Prop} [Decidable p] (f : FieldName) (hp : p) :
    rassert p f = Except.ok () := by
  simp [rassert, hp]

lemma rassert_neg {p : Prop} [Decidable p] (f : FieldName) (hp : ¬p) :
    rassert p f = Except.error (.assertFailed f) := by
  simp [rassert, hp]

/-! ### Encoding and decoding -/

@[simp] lemma length_enc (w v : Nat) : (enc w v).length = w := by
  induction w generalizing v with
  | zero => rfl
  | succ w ih => simp [enc, ih]

@[simp] lemma length_enc32 (v : Nat) : (enc32 v).length = 4 := length_enc 4 v

@[simp] lemma length_enc64 (v : Nat) : (enc64 v).length = 8 := length_enc 8 v

@[simp] lemma length_enc32i (i : Int) : (enc32i i).length = 4 := length_enc 4 _

lemma decLE_enc (w v : Nat) : decLE (enc w v) = v % 256 ^ w := by
  induction w generalizing v with
  | zero => simp [enc, decLE, Nat.mod_one]
  | succ w ih =>
    simp only [enc, decLE, ih]
    rw [Nat.pow_succ, Nat.mul_comm (256 ^ w) 256, Nat.mod_mul]
    omega

lemma decLE_enc64 (v : Nat) (h : v < 2 ^ 64) : decLE (enc64 v) = v := by
  rw [enc64, decLE_enc]
  have : (256 : Nat) ^ 8 = 2 ^ 64 := by norm_num
  rw [this]
  exact Nat.mod_eq_of_lt h

lemma decLE_enc32 (v : Nat) (h : v < 2 ^ 32) : decLE (enc32 v) = v := by
  rw [enc32, decLE_enc]
  have : (256 : Nat) ^ 4 = 2 ^ 32 := by norm_num
  rw [this]
  exact Nat.mod_eq_of_lt h

lemma i32OfNat_enc32i (i : Int) (h1 : -2 ^ 31 ≤ i) (h2 : i < 2 ^ 31) :
    i32OfNat (decLE (enc32i i)) = i := by
  rw [enc32i, decLE_enc]
  have h4 : (256 : Nat) ^ 4 = 2 ^ 32 := by norm_num
  rw [h4]
  unfold i32OfNat
  have hmod : (0 : Int) ≤ i % 2 ^ 32 := Int.emod_nonneg i (by norm_num)
  have hmod2 : i % 2 ^ 32 < 2 ^ 32 := Int.emod_lt_of_pos i (by norm_num)
  have htn : (((i % 2 ^ 32).toNat : Nat) : Int) = i % 2 ^ 32 := Int.toNat_of_nonneg hmod
  have hi : i % 2 ^ 32 = if 0 ≤ i then i else i + 2 ^ 32 := by
    split <;> omega
  split <;> rename_i hlt <;> omega

lemma usizeOfI32_ofNat (n : Nat) (h : n < 2 ^ 64) : usizeOfI32 (n : Int) = n := by
  unfold usizeOfI32
  omega

lemma usizeOfI32_neg (i : Int) (h1 : -2 ^ 63 ≤ i) (h2 : i < 0) :
    (usizeOfI32 i : Int) = 2 ^ 64 + i := by
  unfold usizeOfI32
  omega

/-! ### Reading back what was written

The workhorse formulation: a hypothesis `data.drop p = mid ++ rest` exposes
the bytes a sequential read at position `p` will consume; `drop_step`
advances it past the consumed segment. -/

lemma drop_of_append (data pre suf : List Nat) (p : Nat)
    (hdata : data = pre ++ suf) (hp : p = pre.length) :
    data.drop p = suf ∧ p ≤ data.length := by
  subst hdata hp
  exact ⟨List.drop_left pre suf, by simp⟩

lemma drop_step {data : List Nat} (A : List Nat) {B : List Nat} {p n : Nat}
    (h : data.drop p = A ++ B) (hp : p ≤ data.length) (hn : n = A.length) :
    data.drop (p + n) = B ∧ p + n ≤ data.length := by
  have hlen : (data.drop p).length = data.length - p := by simp
  rw [h] at hlen
  simp only [List.length_append] at hlen
  constructor
  · rw [← List.drop_drop, h, hn, List.drop_left]
  · omega

lemma readBytes_suffix {data B : List Nat} {p n : Nat} (mid : List Nat)
    (h : data.drop p = mid ++ B) (hp : p ≤ data.length) (hn : n = mid.length) :
    readBytes ⟨data, p⟩ n = .ok (mid, ⟨data, p + n⟩) := by
  subst hn
  have hlen : (data.drop p).length = data.length - p := by simp
  rw [h] at hlen
  simp only [List.length_append] at hlen
  unfold readBytes
  dsimp only
  rw [if_pos (by omega)]
  rw [h, List.take_left]

lemma readU32_suffix (v : Nat) {data B : List Nat} {p : Nat}
    (h : data.drop p = enc32 v ++ B) (hp : p ≤ data.length) (hv : v < 2 ^ 32) :
    readU32 ⟨data, p⟩ = .ok (v, ⟨data, p + 4⟩) := by
  unfold readU32
  rw [readBytes_suffix (enc32 v) h hp (length_enc32 v).symm]
  simp [decLE_enc32 v hv]
  omega

lemma readU64_suffix (v : Nat) {data B : List Nat} {p : Nat}
    (h : data.drop p = enc64 v ++ B) (hp : p ≤ data.length) (hv : v < 2 ^ 64) :
    readU64 ⟨data, p⟩ = .ok (v, ⟨data, p + 8⟩) := by
  unfold readU64
  rw [readBytes_suffix (enc64 v) h hp (length_enc64 v).symm]
  simp [decLE_enc64 v hv]
  omega

lemma readI32_suffix (i : Int) {data B : List Nat} {p : Nat}
    (h : data.drop p = enc32i i ++ B) (hp : p ≤ data.length)
    (h1 : -2 ^ 31 ≤ i) (h2 : i < 2 ^ 31) :
    readI32 ⟨data, p⟩ = .ok (i, ⟨data, p + 4⟩) := by
  unfold readI32
  rw [readBytes_suffix (enc32i i) h hp (length_enc32i i).symm]
  simp [i32OfNat_enc32i i h1 h2]

lemma read_string_suffix (s : List Nat) {data B : List Nat} {p : Nat}
    (h : data.drop p = enc64 s.length ++ (s ++ B)) (hp : p ≤ data.length)
    (hlen : s.length < 2 ^ 64) (hutf : isValidUtf8 s = true) :
    read_string ⟨data, p⟩ = .ok (s, ⟨data, p + 8 + s.length⟩) := by
  unfold read_string
  rw [readU64_suffix s.length h hp hlen]
  dsimp only [ok_bind]
  obtain ⟨h2, hp2⟩ := drop_step (enc64 s.length) h hp (length_enc64 _).symm
  rw [readBytes_suffix s h2 hp2 rfl]
  simp [hutf]

lemma readModelType_suffix (t : ModelType) {data B : List Nat} {p : Nat}
    (h : data.drop p = enc32 t.tag ++ B) (hp : p ≤ data.length) :
    readModelType ⟨data, p⟩ = .ok (t, ⟨data, p + 4⟩) := by
  unfold readModelType
  rw [readU32_suffix t.tag h hp (by cases t <;> simp [ModelType.tag])]
  cases t <;> simp [ModelType.tag]

lemma readParamMetadata_suffix (off sz nn : Nat) {data B : List Nat} {p : Nat}
    (h : data.drop p = enc64 off ++ (enc64 sz ++ (enc64 nn ++ B)))
    (hp : p ≤ data.length)
    (hoff : off < 2 ^ 64) (hsz : sz < 2 ^ 64) (hnn : nn < 2 ^ 64) :
    readParamMetadata ⟨data, p⟩ = .ok (⟨off, sz, nn⟩, ⟨data, p + 24⟩) := by
  unfold readParamMetadata
  rw [readU64_suffix off h hp hoff]
  dsimp only [ok_bind]
  obtain ⟨h2, hp2⟩ := drop_step (enc64 off) h hp (length_enc64 _).symm
  rw [readU64_suffix sz h2 hp2 hsz]
  dsimp only [ok_bind]
  obtain ⟨h3, hp3⟩ := drop_step (enc64 sz) h2 hp2 (length_enc64 _).symm
  rw [readU64_suffix nn h3 hp3 hnn]
  dsimp only [ok_bind]
  norm_num

lemma readModelFileHeader_suffix (magic : List Nat) (v hs : Nat)
    {data B : List Nat} {p : Nat}
    (h : data.drop p = magic ++ (enc32 v ++ (enc64 hs ++ B)))
    (hp : p ≤ data.length) (hm : magic.length = 8)
    (hv : v < 2 ^ 32) (hh : hs < 2 ^ 64) :
    readModelFileHeader ⟨data, p⟩ = .ok (⟨magic, v, hs⟩, ⟨data, p + 20⟩) := by
  unfold readModelFileHeader
  rw [readBytes_suffix magic h hp hm.symm]
  dsimp only [ok_bind]
  obtain ⟨h2, hp2⟩ := drop_step magic h hp hm.symm
  rw [readU32_suffix v h2 (by omega) hv]
  dsimp only [ok_bind]
  obtain ⟨h3, hp3⟩ := drop_step (enc32 v) h2 (by omega) (length_enc32 _).symm
  rw [readU64_suffix hs h3 (by omega) hh]
  dsimp only [ok_bind]
  have hpos : p + 8 + 4 + 8 = p + 20 := by omega
  rw [hpos]
  rfl

/-! ### NUL trimming -/

lemma dropWhile_replicate_append (p : Nat → Bool) (a k : Nat) (xs : List Nat)
    (h : p a = true) :
    (List.replicate k a ++ xs).dropWhile p = xs.dropWhile p := by
  induction k with
  | zero => simp
  | succ k ih => simp [List.replicate_succ, List.dropWhile_cons, h, ih]

lemma trimNul_append_zeros (l : List Nat) (k : Nat) (h : trimFree l = true) :
    trimNul (l ++ List.replicate k 0) = l := by
  unfold trimNul
  match l, h with
  | [], _ =>
    simp only [List.nil_append]
    have hz : (List.replicate k 0).dropWhile (· == 0) = [] := by
      have := dropWhile_replicate_append (· == 0) 0 k [] (by simp)
      simp at this
      simp [this]
    simp [hz]
  | b :: r, h =>
    simp only [trimFree, Bool.and_eq_true, bne_iff_ne, ne_eq] at h
    obtain ⟨hb, hlast⟩ := h
    have hbf : (b == 0) = false := by simpa using hb
    rw [List.cons_append, List.dropWhile_cons, hbf]
    simp only [Bool.false_eq_true, if_false]
    rw [← List.cons_append, List.reverse_append, List.reverse_replicate]
    rw [dropWhile_replicate_append (· == 0) 0 k _ (by simp)]
    rcases hr : (b :: r).reverse with _ | ⟨x, xs⟩
    · simp at hr
    · have hx : (b :: r).getLast? = some x := by
        rw [← List.head?_reverse, hr]; rfl
      have hxne : (x == 0) = false := by
        simp only [beq_eq_false_iff_ne, ne_eq]
        intro hx0
        exact hlast (by rw [hx, hx0])
      rw [List.dropWhile_cons, hxne]
      simp only [Bool.false_eq_true, if_false]
      rw [← hr, List.reverse_reverse]

lemma trimNul_trimFree (l : List Nat) (h : trimFree l = true) : trimNul l = l := by
  have := trimNul_append_zeros l 0 h
  simpa using this

lemma trimNul_padLanguage (l : List Nat) (h : trimFree l = true) :
    trimNul (padLanguage l) = l :=
  trimNul_append_zeros l _ h

lemma map_trimNul_eq (ts : List (List Nat)) (h : ∀ t ∈ ts, trimFree t = true) :
    ts.map trimNul = ts := by
  induction ts with
  | nil => rfl
  | cons t ts ih =>
    simp only [List.map_cons, List.cons.injEq]
    exact ⟨trimNul_trimFree t (h t (by simp)),
      ih fun x hx => h x (by simp [hx])⟩

/-! ### Lengths of encoded segments -/

lemma length_padLanguage (l : List Nat) (h : l.length ≤ 8) :
    (padLanguage l).length = 8 := by
  simp [padLanguage]
  omega

lemma length_encDescs (base : Nat) (bs : List (List Nat)) :
    (encDescs base bs).length = 16 * bs.length := by
  induction bs generalizing base with
  | nil => rfl
  | cons b bs ih => simp [encDescs, ih]; ring

lemma length_encPartialParams (pp : PartialParams) :
    (encPartialParams pp).length = 60 := by
  simp [encPartialParams]

lemma length_encTokens_le (ts : List (List Nat)) (h : ∀ t ∈ ts, t.length < 2 ^ 31) :
    (encTokens ts).length ≤ ts.length * (4 + 2 ^ 31) := by
  induction ts with
  | nil => simp [encTokens]
  | cons t ts ih =>
    simp only [encTokens, List.length_append, length_enc32i, List.length_cons]
    have h1 : t.length < 2 ^ 31 := h t (by simp)
    have h2 := ih fun x hx => h x (by simp [hx])
    calc 4 + (t.length + (encTokens ts).length)
        ≤ 4 + (2 ^ 31 + ts.length * (4 + 2 ^ 31)) := by omega
      _ ≤ (ts.length + 1) * (4 + 2 ^ 31) := by ring_nf; omega

lemma readPartialParams_suffix (pp : PartialParams) {data B : List Nat} {p : Nat}
    (h : data.drop p = encPartialParams pp ++ B) (hp : p ≤ data.length)
    (hr : I32Range pp) :
    readPartialParams ⟨data, p⟩ = .ok (pp, ⟨data, p + 60⟩) := by
  obtain ⟨a1, b1, a2, b2, a3, b3, a4, b4, a5, b5, a6, b6, a7, b7, a8, b8,
    a9, b9, a10, b10, a11, b11, a12, b12, a13, b13⟩ := hr
  rw [encPartialParams] at h
  simp only [List.append_assoc] at h
  have hrep8 : (8 : Nat) = (List.replicate 8 (0 : Nat)).length := by simp
  unfold readPartialParams
  rw [readBytes_suffix (List.replicate 8 0) h hp hrep8]
  dsimp only [ok_bind]
  obtain ⟨h1, q1⟩ := drop_step (List.replicate 8 0) h hp hrep8
  rw [readI32_suffix pp.batch_size h1 q1 a1 b1]
  dsimp only [ok_bind]
  obtain ⟨h2, q2⟩ := drop_step (enc32i pp.batch_size) h1 q1 (length_enc32i _).symm
  rw [readI32_suffix pp.segment_size h2 q2 a2 b2]
  dsimp only [ok_bind]
  obtain ⟨h3, q3⟩ := drop_step (enc32i pp.segment_size) h2 q2 (length_enc32i _).symm
  rw [readI32_suffix pp.segment_step h3 q3 a3 b3]
  dsimp only [ok_bind]
  obtain ⟨h4, q4⟩ := drop_step (enc32i pp.segment_step) h3 q3 (length_enc32i _).symm
  rw [readI32_suffix pp.mel_features h4 q4 a4 b4]
  dsimp only [ok_bind]
  obtain ⟨h5, q5⟩ := drop_step (enc32i pp.mel_features) h4 q4 (length_enc32i _).symm
  rw [readI32_suffix pp.sample_rate h5 q5 a5 b5]
  dsimp only [ok_bind]
  obtain ⟨h6, q6⟩ := drop_step (enc32i pp.sample_rate) h5 q5 (length_enc32i _).symm
  rw [readI32_suffix pp.frame_shift_ms h6 q6 a6 b6]
  dsimp only [ok_bind]
  obtain ⟨h7, q7⟩ := drop_step (enc32i pp.frame_shift_ms) h6 q6 (length_enc32i _).symm
  rw [readI32_suffix pp.frame_length_ms h7 q7 a7 b7]
  dsimp only [ok_bind]
  obtain ⟨h8, q8⟩ := drop_step (enc32i pp.frame_length_ms) h7 q7 (length_enc32i _).symm
  rw [readI32_suffix pp.round_pow2 h8 q8 a8 b8]
  dsimp only [ok_bind]
  obtain ⟨h9, q9⟩ := drop_step (enc32i pp.round_pow2) h8 q8 (length_enc32i _).symm
  rw [readI32_suffix pp.mel_low h9 q9 a9 b9]
  dsimp only [ok_bind]
  obtain ⟨h10, q10⟩ := drop_step (enc32i pp.mel_low) h9 q9 (length_enc32i _).symm
  rw [readI32_suffix pp.mel_high h10 q10 a10 b10]
  dsimp only [ok_bind]
  obtain ⟨h11, q11⟩ := drop_step (enc32i pp.mel_high) h10 q10 (length_enc32i _).symm
  rw [readI32_suffix pp.snip_edges h11 q11 a11 b11]
  dsimp only [ok_bind]
  obtain ⟨h12, q12⟩ := drop_step (enc32i pp.snip_edges) h11 q11 (length_enc32i _).symm
  rw [readI32_suffix pp.token_count h12 q12 a12 b12]
  dsimp only [ok_bind]
  obtain ⟨h13, q13⟩ := drop_step (enc32i pp.token_count) h12 q12 (length_enc32i _).symm
  rw [readI32_suffix pp.blank_id h13 q13 a13 b13]
  dsimp only [ok_bind]
  have hpos : p + 8 + 4 + 4 + 4 + 4 + 4 + 4 + 4 + 4 + 4 + 4 + 4 + 4 + 4 = p + 60 := by
    omega
  rw [hpos]
  rfl

lemma readToken_suffix (t : List Nat) {data B : List Nat} {p : Nat}
    (h : data.drop p = enc32i (t.length : Int) ++ (t ++ B)) (hp : p ≤ data.length)
    (hlen : t.length < 2 ^ 31) (hutf : isValidUtf8 t = true) :
    readToken ⟨data, p⟩ = .ok (trimNul t, ⟨data, p + 4 + t.length⟩) := by
  unfold readToken
  rw [readI32_suffix (t.length : Int) h hp (by omega) (by exact_mod_cast hlen)]
  dsimp only [ok_bind]
  rw [usizeOfI32_ofNat t.length (by omega)]
  rw [if_neg (show ¬isizeMax < t.length by unfold isizeMax; omega)]
  obtain ⟨h2, hp2⟩ := drop_step (enc32i (t.length : Int)) h hp (length_enc32i _).symm
  rw [readBytes_suffix t h2 hp2 rfl]
  simp [hutf]

lemma readTokens_suffix (ts : List (List Nat)) {data B : List Nat} {p : Nat}
    (h : data.drop p = encTokens ts ++ B) (hp : p ≤ data.length)
    (hts : ∀ t ∈ ts, isValidUtf8 t = true ∧ t.length < 2 ^ 31) :
    readTokens ts.length ⟨data, p⟩ =
      .ok (ts.map trimNul, ⟨data, p + (encTokens ts).length⟩) := by
  induction ts generalizing p with
  | nil => simp [readTokens, encTokens]
  | cons t rest ih =>
    rw [encTokens] at h
    simp only [List.append_assoc] at h
    simp only [List.length_cons, readTokens]
    rw [readToken_suffix t h hp (hts t (by simp)).2 (hts t (by simp)).1]
    dsimp only [ok_bind]
    obtain ⟨h2, hp2⟩ := drop_step (enc32i (t.length : Int)) h hp (length_enc32i _).symm
    obtain ⟨h3, hp3⟩ := drop_step t h2 hp2 rfl
    rw [ih h3 hp3 (fun x hx => hts x (by simp [hx]))]
    dsimp only [ok_bind]
    simp only [List.map_cons, encTokens, List.length_append, length_enc32i]
    have hpos : p + 4 + t.length + (encTokens rest).length =
        p + (4 + (t.length + (encTokens rest).length)) := by omega
    rw [hpos]
    rfl

lemma readNetworkDefs_suffix (bs : List (List Nat)) (base : Nat)
    {data B : List Nat} {p : Nat}
    (h : data.drop p = encDescs base bs ++ B) (hp : p ≤ data.length)
    (hb : base + (encBlobs bs).length < 2 ^ 64) :
    readNetworkDefs bs.length ⟨data, p⟩ =
      .ok (descList base bs, ⟨data, p + 16 * bs.length⟩) := by
  induction bs generalizing base p with
  | nil => simp [readNetworkDefs, descList]
  | cons b rest ih =>
    rw [encDescs] at h
    simp only [List.append_assoc] at h
    have hblen : (encBlobs (b :: rest)).length = b.length + (encBlobs rest).length := by
      simp [encBlobs]
    rw [hblen] at hb
    simp only [List.length_cons, readNetworkDefs]
    rw [readU64_suffix base h hp (by omega)]
    dsimp only [ok_bind]
    obtain ⟨h2, hp2⟩ := drop_step (enc64 base) h hp (length_enc64 _).symm
    rw [readU64_suffix b.length h2 hp2 (by omega)]
    dsimp only [ok_bind]
    obtain ⟨h3, hp3⟩ := drop_step (enc64 b.length) h2 hp2 (length_enc64 _).symm
    rw [ih (base + b.length) h3 hp3 (by omega)]
    dsimp only [ok_bind]
    simp only [descList]
    have hpos : p + 8 + 8 + 16 * rest.length = p + 16 * (rest.length + 1) := by ring
    rw [hpos]
    rfl

lemma readNetworks_ok (ds : List NetworkDefinition) (data : List Nat) (p : Nat)
    (h : ∀ d ∈ ds, d.offset + d.size ≤ data.length) :
    readNetworks ds ⟨data, p⟩ =
      .ok (ds.map (fun d => (data.drop d.offset).take d.size),
        ⟨data, netsEndPos p ds⟩) := by
  induction ds generalizing p with
  | nil => simp [readNetworks, netsEndPos]
  | cons d rest ih =>
    simp only [readNetworks, NetworkDefinition.read]
    unfold readBytes
    dsimp only
    rw [if_pos (h d (by simp))]
    dsimp only [ok_bind]
    rw [ih (d.offset + d.size) (fun x hx => h x (by simp [hx]))]
    dsimp only [ok_bind]
    simp [netsEndPos]

lemma descList_extract (bs : List (List Nat)) (base : Nat) (data : List Nat)
    (pre post : List Nat)
    (hdata : data = pre ++ (encBlobs bs ++ post)) (hbase : pre.length = base) :
    ((descList base bs).map (fun d => (data.drop d.offset).take d.size) = bs) ∧
    (∀ d ∈ descList base bs, d.offset + d.size ≤ data.length) := by
  induction bs generalizing base pre with
  | nil => simp [descList]
  | cons b rest ih =>
    rw [encBlobs] at hdata
    simp only [List.append_assoc] at hdata
    have hdrop : data.drop base = b ++ (encBlobs rest ++ post) := by
      rw [hdata, ← hbase, List.drop_left]
    have hlen : base + b.length ≤ data.length := by
      rw [hdata]
      simp only [List.length_append]
      omega
    have hrec := ih (base + b.length) (pre ++ b)
      (by rw [hdata]; simp) (by simp [hbase])
    simp only [descList, List.map_cons, List.mem_cons]
    constructor
    · rw [hdrop, List.take_left]
      simp [hrec.1]
    · intro d hd
      rcases hd with hd | hd
      · subst hd; exact hlen
      · exact hrec.2 d hd

lemma length_encBlobs_le (bs : List (List Nat)) (h : ∀ b ∈ bs, b.length < 2 ^ 32) :
    (encBlobs bs).length ≤ bs.length * 2 ^ 32 := by
  induction bs with
  | nil => simp [encBlobs]
  | cons b bs ih =>
    simp only [encBlobs, List.length_append, List.length_cons]
    have h1 : b.length < 2 ^ 32 := h b (by simp)
    have h2 := ih fun x hx => h x (by simp [hx])
    calc b.length + (encBlobs bs).length ≤ 2 ^ 32 + bs.length * 2 ^ 32 := by omega
      _ = (bs.length + 1) * 2 ^ 32 := by ring


/-! ### The round trip -/

lemma decide_boolenc (b : Bool) :
    (decide ((if b then (1 : Int) else 0) ≠ 0)) = b := by
  cases b <;> rfl

lemma roundtrip_core (magic : List Nat) (hs tag : Nat) (m : ModelFile)
    (hmagic : magic.length = 8) (hhs : hs < 2 ^ 64)
    (htag : tag = m.model_type.tag) (hm : ValidModel m) :
    ModelFile.new ⟨serializeG magic hs tag m, 0⟩ =
      .ok (m, ⟨serializeG magic hs tag m,
        netsEndPos (paramOffsetOf magic hs tag m + 60 + (encTokens m.params.tokens).length)
          (descList (blobBaseOf magic hs tag m) m.params.networks)⟩) := by
  subst htag
  obtain ⟨hver, hlang8, hlangutf, hlangtrim, hnameutf, hnamelen, hdescutf, hdesclen,
    hvp, hnets8, hblobs, htok0, htokcnt, htoks, hblank0, hblank1⟩ := hm
  obtain ⟨q1, q2, q3, q4, q5, q6, q7, q8, q9, q10, q11, q12, q13, q14,
    q15, q16, q17, q18⟩ := hvp
  have hmh0 : 0 ≤ m.params.mel_high := by rcases q17 with h | h <;> omega
  have hD0 : serializeG magic hs m.model_type.tag m =
      magic ++ (enc32 m.version ++ (enc64 hs ++ (padLanguage m.language ++
      (enc64 m.name.length ++ (m.name ++ (enc64 m.description.length ++
      (m.description ++ (enc32 m.model_type.tag ++ (enc64 (paramOffsetOf magic hs m.model_type.tag m) ++
      (enc64 0 ++ (enc64 m.params.networks.length ++
      (encDescs (blobBaseOf magic hs m.model_type.tag m) m.params.networks ++
      (encPartialParams (ppOf m) ++ (encTokens m.params.tokens ++
      encBlobs m.params.networks)))))))))))))) := by
    unfold serializeG headerPart
    simp [List.append_assoc]
  have hHP : (headerPart magic hs m.model_type.tag m).length =
      48 + m.name.length + m.description.length := by
    unfold headerPart
    simp [List.length_append, hmagic, length_padLanguage m.language hlang8]
    omega
  have hPOdef : paramOffsetOf magic hs m.model_type.tag m =
      (headerPart magic hs m.model_type.tag m).length + 24 + 16 * m.params.networks.length := rfl
  have hBBdef : blobBaseOf magic hs m.model_type.tag m =
      paramOffsetOf magic hs m.model_type.tag m + 60 + (encTokens m.params.tokens).length := rfl
  have hVT := length_encTokens_le m.params.tokens (fun t ht => (htoks t ht).2.1)
  have hBL := length_encBlobs_le m.params.networks hblobs
  have hPO64 : paramOffsetOf magic hs m.model_type.tag m < 2 ^ 64 := by
    rw [hPOdef, hHP]; omega
  have hK64 : m.params.networks.length < 2 ^ 64 := by omega
  have hBB64 : blobBaseOf magic hs m.model_type.tag m + (encBlobs m.params.networks).length
      < 2 ^ 64 := by
    rw [hBBdef, hPOdef, hHP]; omega
  have hI32 : I32Range (ppOf m) := by
    unfold I32Range ppOf
    dsimp only
    have hb1 : -2 ^ 31 ≤ (if m.params.round_pow2 then (1 : Int) else 0) ∧
        (if m.params.round_pow2 then (1 : Int) else 0) < 2 ^ 31 := by
      split <;> norm_num
    have hb2 : -2 ^ 31 ≤ (if m.params.snip_edges then (1 : Int) else 0) ∧
        (if m.params.snip_edges then (1 : Int) else 0) < 2 ^ 31 := by
      split <;> norm_num
    have hb3 : -2 ^ 31 ≤ (m.params.tokens.length : Int) ∧
        (m.params.tokens.length : Int) < 2 ^ 31 := by
      constructor <;> omega
    exact ⟨by omega, by omega, by omega, by omega, by omega, by omega,
      by omega, by omega, by omega, by omega, by omega, by omega,
      by omega, by omega, hb1.1, hb1.2, by omega, by omega,
      by omega, by omega, hb2.1, hb2.2, hb3.1, hb3.2, by omega, by omega⟩
  have hTC : ((m.params.tokens.length : Int)).toNat = m.params.tokens.length := by
    simp
  -- step 1: the file header
  have h1 : (serializeG magic hs m.model_type.tag m).drop 0 =
      magic ++ (enc32 m.version ++ (enc64 hs ++ (padLanguage m.language ++
      (enc64 m.name.length ++ (m.name ++ (enc64 m.description.length ++
      (m.description ++ (enc32 m.model_type.tag ++ (enc64 (paramOffsetOf magic hs m.model_type.tag m) ++
      (enc64 0 ++ (enc64 m.params.networks.length ++
      (encDescs (blobBaseOf magic hs m.model_type.tag m) m.params.networks ++
      (encPartialParams (ppOf m) ++ (encTokens m.params.tokens ++
      encBlobs m.params.networks)))))))))))))) := by
    rw [List.drop_zero]
    exact hD0
  unfold ModelFile.new
  rw [readModelFileHeader_suffix magic m.version hs h1 (Nat.zero_le _) hmagic hver hhs]
  dsimp only [ok_bind]
  -- step 2: the language tag
  obtain ⟨h2, g2⟩ := drop_of_append (serializeG magic hs m.model_type.tag m)
    (magic ++ enc32 m.version ++ enc64 hs)
    (padLanguage m.language ++
      (enc64 m.name.length ++ (m.name ++ (enc64 m.description.length ++
      (m.description ++ (enc32 m.model_type.tag ++ (enc64 (paramOffsetOf magic hs m.model_type.tag m) ++
      (enc64 0 ++ (enc64 m.params.networks.length ++
      (encDescs (blobBaseOf magic hs m.model_type.tag m) m.params.networks ++
      (encPartialParams (ppOf m) ++ (encTokens m.params.tokens ++
      encBlobs m.params.networks))))))))))))
    (0 + 20)
    (by rw [hD0]; simp [List.append_assoc]) (by simp [hmagic])
  rw [readBytes_suffix (padLanguage m.language) h2 g2
    (length_padLanguage m.language hlang8).symm]
  dsimp only [ok_bind]
  rw [if_pos hlangutf]
  rw [trimNul_padLanguage m.language hlangtrim]
  dsimp only [pure_eq_ok, ok_bind]
  -- step 3: name
  obtain ⟨h3, g3⟩ := drop_of_append (serializeG magic hs m.model_type.tag m)
    (magic ++ enc32 m.version ++ enc64 hs ++ padLanguage m.language)
    (enc64 m.name.length ++ (m.name ++ (enc64 m.description.length ++
      (m.description ++ (enc32 m.model_type.tag ++ (enc64 (paramOffsetOf magic hs m.model_type.tag m) ++
      (enc64 0 ++ (enc64 m.params.networks.length ++
      (encDescs (blobBaseOf magic hs m.model_type.tag m) m.params.networks ++
      (encPartialParams (ppOf m) ++ (encTokens m.params.tokens ++
      encBlobs m.params.networks)))))))))))
    (0 + 20 + 8)
    (by rw [hD0]; simp [List.append_assoc])
    (by simp [List.length_append, hmagic, length_padLanguage m.language hlang8])
  rw [read_string_suffix m.name h3 g3 (by omega) hnameutf]
  dsimp only [ok_bind]
  -- step 4: description
  obtain ⟨h4, g4⟩ := drop_of_append (serializeG magic hs m.model_type.tag m)
    (magic ++ enc32 m.version ++ enc64 hs ++ padLanguage m.language ++
      enc64 m.name.length ++ m.name)
    (enc64 m.description.length ++
      (m.description ++ (enc32 m.model_type.tag ++ (enc64 (paramOffsetOf magic hs m.model_type.tag m) ++
      (enc64 0 ++ (enc64 m.params.networks.length ++
      (encDescs (blobBaseOf magic hs m.model_type.tag m) m.params.networks ++
      (encPartialParams (ppOf m) ++ (encTokens m.params.tokens ++
      encBlobs m.params.networks)))))))))
    (0 + 20 + 8 + 8 + m.name.length)
    (by rw [hD0]; simp [List.append_assoc])
    (by simp [List.length_append, hmagic, length_padLanguage m.language hlang8]; omega)
  rw [read_string_suffix m.description h4 g4 (by omega) hdescutf]
  dsimp only [ok_bind]
  -- step 5: the model type tag
  obtain ⟨h5, g5⟩ := drop_of_append (serializeG magic hs m.model_type.tag m)
    (magic ++ enc32 m.version ++ enc64 hs ++ padLanguage m.language ++
      enc64 m.name.length ++ m.name ++ enc64 m.description.length ++ m.description)
    (enc32 m.model_type.tag ++ (enc64 (paramOffsetOf magic hs m.model_type.tag m) ++
      (enc64 0 ++ (enc64 m.params.networks.length ++
      (encDescs (blobBaseOf magic hs m.model_type.tag m) m.params.networks ++
      (encPartialParams (ppOf m) ++ (encTokens m.params.tokens ++
      encBlobs m.params.networks)))))))
    (0 + 20 + 8 + 8 + m.name.length + 8 + m.description.length)
    (by rw [hD0]; simp [List.append_assoc])
    (by simp [List.length_append, hmagic, length_padLanguage m.language hlang8]; omega)
  rw [readModelType_suffix m.model_type h5 g5]
  dsimp only [ok_bind]
  -- step 6: the parameter metadata
  obtain ⟨h6, g6⟩ := drop_of_append (serializeG magic hs m.model_type.tag m)
    (magic ++ enc32 m.version ++ enc64 hs ++ padLanguage m.language ++
      enc64 m.name.length ++ m.name ++ enc64 m.description.length ++
      m.description ++ enc32 m.model_type.tag)
    (enc64 (paramOffsetOf magic hs m.model_type.tag m) ++
      (enc64 0 ++ (enc64 m.params.networks.length ++
      (encDescs (blobBaseOf magic hs m.model_type.tag m) m.params.networks ++
      (encPartialParams (ppOf m) ++ (encTokens m.params.tokens ++
      encBlobs m.params.networks))))))
    (0 + 20 + 8 + 8 + m.name.length + 8 + m.description.length + 4)
    (by rw [hD0]; simp [List.append_assoc])
    (by simp [List.length_append, hmagic, length_padLanguage m.language hlang8]; omega)
  rw [readParamMetadata_suffix (paramOffsetOf magic hs m.model_type.tag m) 0
    m.params.networks.length h6 g6 hPO64 (by norm_num) hK64]
  dsimp only [ok_bind]
  -- step 7: ParamMetadata.parse — the num_networks assert and the descriptor table
  unfold ParamMetadata.parse
  dsimp only
  rw [rassert_pos FieldName.num_networks
    (show m.params.networks.length ≤ MAX_NETWORKS by
      rw [show MAX_NETWORKS = 8 from rfl]; omega)]
  dsimp only [ok_bind]
  obtain ⟨h7, g7⟩ := drop_of_append (serializeG magic hs m.model_type.tag m)
    (magic ++ enc32 m.version ++ enc64 hs ++ padLanguage m.language ++
      enc64 m.name.length ++ m.name ++ enc64 m.description.length ++
      m.description ++ enc32 m.model_type.tag ++ enc64 (paramOffsetOf magic hs m.model_type.tag m) ++
      enc64 0 ++ enc64 m.params.networks.length)
    (encDescs (blobBaseOf magic hs m.model_type.tag m) m.params.networks ++
      (encPartialParams (ppOf m) ++ (encTokens m.params.tokens ++
      encBlobs m.params.networks)))
    (0 + 20 + 8 + 8 + m.name.length + 8 + m.description.length + 4 + 24)
    (by rw [hD0]; simp [List.append_assoc])
    (by simp [List.length_append, hmagic, length_padLanguage m.language hlang8]; omega)
  rw [readNetworkDefs_suffix m.params.networks (blobBaseOf magic hs m.model_type.tag m)
    h7 g7 hBB64]
  dsimp only [ok_bind]
  -- step 8: seek to the parameter block and read the fixed record
  obtain ⟨h8, g8⟩ := drop_of_append (serializeG magic hs m.model_type.tag m)
    (magic ++ enc32 m.version ++ enc64 hs ++ padLanguage m.language ++
      enc64 m.name.length ++ m.name ++ enc64 m.description.length ++
      m.description ++ enc32 m.model_type.tag ++ enc64 (paramOffsetOf magic hs m.model_type.tag m) ++
      enc64 0 ++ enc64 m.params.networks.length ++
      encDescs (blobBaseOf magic hs m.model_type.tag m) m.params.networks)
    (encPartialParams (ppOf m) ++ (encTokens m.params.tokens ++
      encBlobs m.params.networks))
    (paramOffsetOf magic hs m.model_type.tag m)
    (by rw [hD0]; simp [List.append_assoc])
    (by rw [hPOdef, hHP]
        simp [List.length_append, hmagic, length_padLanguage m.language hlang8,
          length_encDescs]
        omega)
  rw [readPartialParams_suffix (ppOf m) h8 g8 hI32]
  dsimp only [ok_bind]
  -- step 9: the eleven parameter asserts
  dsimp only [ppOf]
  rw [rassert_pos FieldName.batch_size q1]
  dsimp only [ok_bind]
  rw [rassert_pos FieldName.segment_size ⟨q2, q3⟩]
  dsimp only [ok_bind]
  rw [rassert_pos FieldName.segment_step ⟨q4, q5, q6⟩]
  dsimp only [ok_bind]
  rw [rassert_pos FieldName.mel_features ⟨q7, q8⟩]
  dsimp only [ok_bind]
  rw [rassert_pos FieldName.sample_rate ⟨q9, q10⟩]
  dsimp only [ok_bind]
  rw [rassert_pos FieldName.token_count
    ⟨by exact_mod_cast htok0, by exact_mod_cast htokcnt⟩]
  dsimp only [ok_bind]
  rw [rassert_pos FieldName.blank_id ⟨hblank0, hblank1⟩]
  dsimp only [ok_bind]
  rw [rassert_pos FieldName.frame_shift_ms ⟨q11, q12⟩]
  dsimp only [ok_bind]
  rw [rassert_pos FieldName.frame_length_ms ⟨q13, q14⟩]
  dsimp only [ok_bind]
  rw [rassert_pos FieldName.mel_low ⟨q15, q16⟩]
  dsimp only [ok_bind]
  rw [rassert_pos FieldName.mel_high q17]
  dsimp only [ok_bind]
  -- step 10: the vocabulary
  rw [hTC]
  obtain ⟨h9, g9⟩ := drop_of_append (serializeG magic hs m.model_type.tag m)
    (magic ++ enc32 m.version ++ enc64 hs ++ padLanguage m.language ++
      enc64 m.name.length ++ m.name ++ enc64 m.description.length ++
      m.description ++ enc32 m.model_type.tag ++ enc64 (paramOffsetOf magic hs m.model_type.tag m) ++
      enc64 0 ++ enc64 m.params.networks.length ++
      encDescs (blobBaseOf magic hs m.model_type.tag m) m.params.networks ++
      encPartialParams (ppOf m))
    (encTokens m.params.tokens ++ encBlobs m.params.networks)
    (paramOffsetOf magic hs m.model_type.tag m + 60)
    (by rw [hD0]; simp [List.append_assoc])
    (by rw [hPOdef, hHP]
        simp [List.length_append, hmagic, length_padLanguage m.language hlang8,
          length_encDescs, length_encPartialParams]
        omega)
  rw [readTokens_suffix m.params.tokens h9 g9
    (fun t ht => ⟨(htoks t ht).1, (htoks t ht).2.1⟩)]
  dsimp only [ok_bind]
  rw [map_trimNul_eq m.params.tokens (fun t ht => (htoks t ht).2.2)]
  -- step 11: the network blobs
  obtain ⟨hmapd, hboundd⟩ := descList_extract m.params.networks
    (blobBaseOf magic hs m.model_type.tag m)
    (serializeG magic hs m.model_type.tag m)
    (magic ++ enc32 m.version ++ enc64 hs ++ padLanguage m.language ++
      enc64 m.name.length ++ m.name ++ enc64 m.description.length ++
      m.description ++ enc32 m.model_type.tag ++ enc64 (paramOffsetOf magic hs m.model_type.tag m) ++
      enc64 0 ++ enc64 m.params.networks.length ++
      encDescs (blobBaseOf magic hs m.model_type.tag m) m.params.networks ++
      encPartialParams (ppOf m) ++ encTokens m.params.tokens)
    []
    (by rw [hD0]; simp [List.append_assoc])
    (by rw [hBBdef, hPOdef, hHP]
        simp [List.length_append, hmagic, length_padLanguage m.language hlang8,
          length_encDescs, length_encPartialParams]
        omega)
  rw [readNetworks_ok (descList (blobBaseOf magic hs m.model_type.tag m) m.params.networks)
    (serializeG magic hs m.model_type.tag m)
    (paramOffsetOf magic hs m.model_type.tag m + 60 + (encTokens m.params.tokens).length)
    hboundd]
  dsimp only [ok_bind]
  rw [hmapd]
  -- step 12: reassemble the records
  rw [decide_boolenc m.params.round_pow2, decide_boolenc m.params.snip_edges]
  rfl


/-! ### Further shared lemmas -/

lemma trimNul_decomp (t : List Nat) :
    ∃ a b, t = List.replicate a 0 ++ (trimNul t ++ List.replicate b 0) := by
  refine ⟨(t.takeWhile (· == 0)).length,
    ((t.dropWhile (· == 0)).reverse.takeWhile (· == 0)).length, ?_⟩
  have h1 : t.takeWhile (· == 0) = List.replicate (t.takeWhile (· == 0)).length 0 := by
    apply List.eq_replicate_of_mem
    intro b hb
    have hb2 := List.mem_takeWhile_imp hb
    simp only [beq_iff_eq] at hb2
    exact hb2
  have h2 : (t.dropWhile (· == 0)).reverse.takeWhile (· == 0) =
      List.replicate ((t.dropWhile (· == 0)).reverse.takeWhile (· == 0)).length 0 := by
    apply List.eq_replicate_of_mem
    intro b hb
    have hb2 := List.mem_takeWhile_imp hb
    simp only [beq_iff_eq] at hb2
    exact hb2
  have eq2 : t.dropWhile (· == 0) = trimNul t ++
      List.replicate ((t.dropWhile (· == 0)).reverse.takeWhile (· == 0)).length 0 := by
    conv_lhs => rw [← List.reverse_reverse (t.dropWhile (· == 0))]
    conv_lhs => rw [← List.takeWhile_append_dropWhile (· == 0)
      (t.dropWhile (· == 0)).reverse]
    rw [List.reverse_append]
    conv_lhs => rw [h2]
    rw [List.reverse_replicate]
    rfl
  calc t = t.takeWhile (· == 0) ++ t.dropWhile (· == 0) :=
        (List.takeWhile_append_dropWhile _ _).symm
    _ = List.replicate (t.takeWhile (· == 0)).length 0 ++ (trimNul t ++
        List.replicate ((t.dropWhile (· == 0)).reverse.takeWhile (· == 0)).length 0) := by
        conv_lhs => rw [h1, eq2]

lemma i32OfNat_range (n : Nat) : -2 ^ 31 ≤ i32OfNat n ∧ i32OfNat n < 2 ^ 31 := by
  unfold i32OfNat
  split <;> omega

lemma readI32_bounds (c c' : Cursor) (len : Int) (h : readI32 c = .ok (len, c')) :
    -2 ^ 31 ≤ len ∧ len < 2 ^ 31 := by
  unfold readI32 readBytes at h
  by_cases hc : c.pos + 4 ≤ c.data.length
  · rw [if_pos hc] at h
    dsimp only [ok_bind] at h
    simp only [pure_eq_ok, Except.ok.injEq, Prod.mk.injEq] at h
    rw [← h.1]
    exact i32OfNat_range _
  · rw [if_neg hc] at h
    simp at h

lemma readTokens_exceeds (n : Nat) (len : Int) (c c' : Cursor)
    (hn : 0 < n) (hread : readI32 c = .ok (len, c'))
    (hsz : usizeOfI32 len ≤ isizeMax)
    (hex : c'.data.length < c'.pos + usizeOfI32 len) :
    readTokens n c = .error .truncated := by
  obtain ⟨k, rfl⟩ : ∃ k, n = k + 1 := ⟨n - 1, by omega⟩
  simp only [readTokens]
  unfold readToken
  rw [hread]
  dsimp only [ok_bind]
  rw [if_neg (by omega)]
  unfold readBytes
  rw [if_neg (by omega)]
  rfl

lemma readTokens_capacity (n : Nat) (len : Int) (c c' : Cursor)
    (hn : 0 < n) (hread : readI32 c = .ok (len, c'))
    (hsz : isizeMax < usizeOfI32 len) :
    readTokens n c = .error .capacityOverflow := by
  obtain ⟨k, rfl⟩ : ∃ k, n = k + 1 := ⟨n - 1, by omega⟩
  simp only [readTokens]
  unfold readToken
  rw [hread]
  dsimp only [ok_bind]
  rw [if_pos hsz]
  rfl

/-! ### The claims -/

/-- C1: the claim says a container whose first 8 bytes differ from
`"APRILMDL"` always fails with `BadMagic`.  The code reads the magic bytes
into the (unused) `aprilmdl` field and never compares them: `badMagicInput`,
whose magic field is `"XXXXXXXX"` but which is otherwise a well-formed
container, parses successfully — there is no `BadMagic` error anywhere in
the code. -/
theorem C1_bad_magic_accepted :
    parseModel badMagicInput = .ok exModel ∧ badMagicInput.take 8 ≠ aprilMagic := by
  constructor
  · show (ModelFile.new
      ⟨serializeG (List.replicate 8 88) 0 exModel.model_type.tag exModel, 0⟩).map
      Prod.fst = _
    rw [roundtrip_core (List.replicate 8 88) 0 exModel.model_type.tag exModel
      (by decide) (by norm_num) rfl (by decide)]
    rfl
  · decide

/-- C2 counterexample: a container that is byte-for-byte a valid serialization
of `exModel` except that its model-type field holds `3` fails to parse
(`binread` returns `NoVariantMatch` for an undeclared `#[br(repr = u32)]`
discriminant), refuting "a container differing only in its model-type value
never fails to parse for that reason". -/
theorem C2_counterexample :
    parseModel badTagInput = .error .noVariantMatch ∧
    parseModel (serializeG aprilMagic 0 1 exModel) = .ok exModel := by
  constructor
  · rfl
  · show (ModelFile.new
      ⟨serializeG aprilMagic 0 exModel.model_type.tag exModel, 0⟩).map Prod.fst = _
    rw [roundtrip_core aprilMagic 0 exModel.model_type.tag exModel
      (by decide) (by norm_num) rfl (by decide)]
    rfl

/-- C2 (amended): reading the model-type tag succeeds exactly for the three
declared discriminants `0`, `1`, `2` (recording the raw variant without any
support checking) and fails with `NoVariantMatch` for every other 32-bit
value; rejecting parsed-but-unsupported variants remains the caller's
responsibility. -/
theorem C2_model_type_tag (v : Nat) (data B : List Nat) (p : Nat)
    (h : data.drop p = enc32 v ++ B) (hp : p ≤ data.length) (hv : v < 2 ^ 32) :
    readModelType ⟨data, p⟩ =
      if v = 0 then .ok (.ModelUnknown, ⟨data, p + 4⟩)
      else if v = 1 then .ok (.ModelLstmTransducerStateless, ⟨data, p + 4⟩)
      else if v = 2 then .ok (.ModelMax, ⟨data, p + 4⟩)
      else .error .noVariantMatch := by
  unfold readModelType
  rw [readU32_suffix v h hp hv]
  dsimp only [ok_bind, pure_eq_ok]

/-- C2 witness: tag value `3` is rejected with `NoVariantMatch`. -/
theorem C2_witness : readModelType ⟨[3, 0, 0, 0], 0⟩ = .error .noVariantMatch := by
  rw [C2_model_type_tag 3 [3, 0, 0, 0] [] 0 (by decide) (by decide) (by decide)]
  rfl

/-- C3 counterexample: a container declaring `num_networks = 9` whose
remaining bytes are a well-formed serialization fails through the
`assert!(num_networks <= MAX_NETWORKS)` macro — a panic that aborts the
process (modelled by `ParseError.assertFailed`), not a recoverable
`TooManyNetworks` error value returned to the caller (no such error type
exists in the code). -/
theorem C3_counterexample :
    parseModel (serializeG aprilMagic 0 1 exModel9) =
      .error (.assertFailed .num_networks) := by
  rfl

/-- C3 (amended): `num_networks = 9` always aborts via the assertion before
any descriptor is read — the failure is an `assert!` panic, not a recoverable
error — while an otherwise-valid container declaring `num_networks = 8`
parses successfully. -/
theorem C3_nine_networks_panic :
    (∀ (pm : ParamMetadata) (c : Cursor), pm.num_networks = 9 →
      ParamMetadata.parse pm c = .error (.assertFailed .num_networks)) ∧
    parseModel (serializeG aprilMagic 0 exModel8.model_type.tag exModel8) =
      .ok exModel8 := by
  constructor
  · intro pm c h
    unfold ParamMetadata.parse
    rw [rassert_neg FieldName.num_networks (by rw [h, MAX_NETWORKS]; omega)]
    rfl
  · show (ModelFile.new ⟨serializeG aprilMagic 0 exModel8.model_type.tag exModel8, 0⟩).map
      Prod.fst = _
    rw [roundtrip_core aprilMagic 0 exModel8.model_type.tag exModel8
      (by decide) (by norm_num) rfl (by decide)]
    rfl

/-- C3 witness: the assertion fires at `num_networks = 9`. -/
theorem C3_witness :
    ParamMetadata.parse ⟨0, 0, 9⟩ ⟨[], 0⟩ = .error (.assertFailed .num_networks) :=
  C3_nine_networks_panic.1 ⟨0, 0, 9⟩ ⟨[], 0⟩ rfl

/-- C4 counterexample: the claim says `num_networks = 0` is rejected;
in fact an otherwise-valid container declaring zero networks parses
successfully (the code checks only `num_networks <= 8`). -/
theorem C4_counterexample :
    parseModel (serialize exModel0) = .ok exModel0 ∧
    exModel0.params.networks = [] := by
  constructor
  · show (ModelFile.new ⟨serializeG aprilMagic 0 exModel0.model_type.tag exModel0, 0⟩).map
      Prod.fst = _
    rw [roundtrip_core aprilMagic 0 exModel0.model_type.tag exModel0
      (by decide) (by norm_num) rfl (by decide)]
    rfl
  · rfl

/-- C4 (amended): the only bound the parser enforces on `num_networks` is the
upper bound `num_networks <= 8` (violations abort via the assertion); there is
no lower bound, and a container declaring `num_networks = 0` is accepted,
yielding an empty network list. -/
theorem C4_only_upper_bound :
    (∀ (pm : ParamMetadata) (c : Cursor), 8 < pm.num_networks →
      ParamMetadata.parse pm c = .error (.assertFailed .num_networks)) ∧
    parseModel (serialize exModel0) = .ok exModel0 ∧
    exModel0.params.networks = [] := by
  refine ⟨?_, ?_, rfl⟩
  · intro pm c h
    unfold ParamMetadata.parse
    rw [rassert_neg FieldName.num_networks (by rw [MAX_NETWORKS]; omega)]
    rfl
  · show (ModelFile.new ⟨serializeG aprilMagic 0 exModel0.model_type.tag exModel0, 0⟩).map
      Prod.fst = _
    rw [roundtrip_core aprilMagic 0 exModel0.model_type.tag exModel0
      (by decide) (by norm_num) rfl (by decide)]
    rfl

/-- C4 witness: the upper-bound assertion fires at `num_networks = 100`. -/
theorem C4_witness :
    ParamMetadata.parse ⟨0, 0, 100⟩ ⟨[], 0⟩ = .error (.assertFailed .num_networks) :=
  C4_only_upper_bound.1 ⟨0, 0, 100⟩ ⟨[], 0⟩ (by decide)

/-- C5 counterexample: a container whose parameter block has
`segment_step = 50 > segment_size = 30` (all earlier fields in range) fails
through the `assert!` naming `segment_step` — a panic aborting the process
(modelled by `ParseError.assertFailed .segment_step`), not a
`ParameterOutOfRange` error value returned to the caller (no such error type
exists in the code). -/
theorem C5_counterexample :
    parseModel (serialize exModelStep) = .error (.assertFailed .segment_step) := by
  rfl

/-- C5 (amended): whenever the decoded parameter record has `batch_size = 1`,
`segment_size` in range and `segment_step > segment_size`, parsing aborts via
the assertion naming `segment_step`; the value is never silently clamped
(no parameter record is ever produced). -/
theorem C5_segment_step_assert (pp : PartialParams) (B : List Nat)
    (hr : I32Range pp) (h1 : pp.batch_size = 1)
    (h2 : 0 < pp.segment_size) (h3 : pp.segment_size < 100)
    (h4 : pp.segment_size < pp.segment_step) :
    ParamMetadata.parse ⟨0, 0, 0⟩ ⟨encPartialParams pp ++ B, 0⟩ =
      .error (.assertFailed .segment_step) := by
  unfold ParamMetadata.parse
  rw [rassert_pos FieldName.num_networks (by decide)]
  dsimp only [ok_bind]
  simp only [readNetworkDefs]
  dsimp only [pure_eq_ok, ok_bind]
  rw [readPartialParams_suffix pp (by rw [List.drop_zero]) (by omega) hr]
  dsimp only [ok_bind]
  rw [rassert_pos FieldName.batch_size h1]
  dsimp only [ok_bind]
  rw [rassert_pos FieldName.segment_size ⟨h2, h3⟩]
  dsimp only [ok_bind]
  rw [rassert_neg FieldName.segment_step (by omega)]
  rfl

/-- C5 witness: the `segment_step` assertion fires on a concrete record with
`segment_size = 30`, `segment_step = 50`. -/
theorem C5_witness :
    ParamMetadata.parse ⟨0, 0, 0⟩
      ⟨encPartialParams ⟨1, 30, 50, 1, 2, 1, 1, 0, 1, 0, 0, 1, 0⟩ ++ [], 0⟩ =
      .error (.assertFailed .segment_step) :=
  C5_segment_step_assert ⟨1, 30, 50, 1, 2, 1, 1, 0, 1, 0, 0, 1, 0⟩ []
    (by decide) (by decide) (by decide) (by decide) (by decide)

/-- C6: when the next vocabulary entry's declared byte length — a
non-negative `i32`, the claim's domain; a negative one never reaches the
read because the scratch-buffer allocation panics first — exceeds the bytes
remaining in the source, the vocabulary loop fails with the recoverable
`truncated` error (propagated to the caller through `?`), never a panic and
never an out-of-bounds read: `read_exact` checks the bound before producing
any bytes, and the allocation is benign (every non-negative `i32` is below
`isize::MAX`). -/
theorem C6_vocab_truncated (n : Nat) (len : Int) (c c' : Cursor)
    (hn : 0 < n) (hread : readI32 c = .ok (len, c')) (hnneg : 0 ≤ len)
    (hex : c'.data.length < c'.pos + usizeOfI32 len) :
    readTokens n c = .error .truncated := by
  obtain ⟨hlo, hhi⟩ := readI32_bounds c c' len hread
  have hsz : usizeOfI32 len ≤ isizeMax := by
    unfold usizeOfI32 isizeMax
    omega
  exact readTokens_exceeds n len c c' hn hread hsz hex

/-- C6 witness: a declared length of 5 with an exhausted source truncates. -/
theorem C6_witness : readTokens 1 ⟨[5, 0, 0, 0], 0⟩ = .error .truncated :=
  C6_vocab_truncated 1 5 ⟨[5, 0, 0, 0], 0⟩ ⟨[5, 0, 0, 0], 4⟩
    (by decide) (by decide) (by decide) (by decide)

/-- C7: for every valid model descriptor, serializing it with the
documented-layout serializer and parsing the result yields the descriptor
back: `parse (serialize m) = ok m`. -/
theorem C7_roundtrip (m : ModelFile) (hm : ValidModel m) :
    parseModel (serialize m) = .ok m := by
  show (ModelFile.new ⟨serializeG aprilMagic 0 m.model_type.tag m, 0⟩).map Prod.fst = _
  rw [roundtrip_core aprilMagic 0 m.model_type.tag m rfl (by norm_num) rfl hm]
  rfl

/-- C7 witness: the round trip on a concrete valid descriptor. -/
theorem C7_witness : ValidModel exModel ∧ parseModel (serialize exModel) = .ok exModel :=
  ⟨by decide, C7_roundtrip exModel (by decide)⟩

/-- C8: for every descriptor list — in file order or not — the blob reader
extracts, for each descriptor in turn, exactly `size` bytes starting at that
descriptor's own `offset`, and returns the blobs in descriptor order. -/
theorem C8_blob_extraction (ds : List NetworkDefinition) (data : List Nat) (p : Nat)
    (h : ∀ d ∈ ds, d.offset + d.size ≤ data.length) :
    readNetworks ds ⟨data, p⟩ =
      .ok (ds.map (fun d => (data.drop d.offset).take d.size),
        ⟨data, netsEndPos p ds⟩) :=
  readNetworks_ok ds data p h

/-- C8 witness: the spec's out-of-monotonic-order example
`(offset, size) = (100, 50), (150, 30), (10, 20)` over a 200-byte source. -/
theorem C8_witness :
    readNetworks ([⟨100, 50⟩, ⟨150, 30⟩, ⟨10, 20⟩] : List NetworkDefinition)
      ⟨List.range 200, 0⟩ =
      .ok (([⟨100, 50⟩, ⟨150, 30⟩, ⟨10, 20⟩] : List NetworkDefinition).map
        (fun d => ((List.range 200).drop d.offset).take d.size),
        ⟨List.range 200,
          netsEndPos 0 ([⟨100, 50⟩, ⟨150, 30⟩, ⟨10, 20⟩] : List NetworkDefinition)⟩) :=
  C8_blob_extraction ([⟨100, 50⟩, ⟨150, 30⟩, ⟨10, 20⟩] : List NetworkDefinition)
    (List.range 200) 0 (by decide)

/-- C9 counterexample: the claim says only trailing NUL bytes are stripped
and leading NUL bytes are preserved.  The code uses `trim_matches('\x00')`,
which strips BOTH ends: the token encoded as length 2 with bytes
`[0x00, 'a']` decodes to `"a"`, not `"\x00a"`. -/
theorem C9_counterexample :
    readToken ⟨[2, 0, 0, 0, 0, 97], 0⟩ = .ok ([97], ⟨[2, 0, 0, 0, 0, 97], 6⟩) ∧
    ([97] : List Nat) ≠ [0, 97] := by
  constructor
  · rfl
  · decide

/-- C9 (amended): a decoded vocabulary token (and likewise the language tag,
which goes through the same `trim_matches('\x00')`) is the payload with NUL
bytes stripped from BOTH ends: the result of reading an encoded token is
`trimNul` of its payload, and every byte list decomposes as leading NUL
padding, the trimmed core, and trailing NUL padding. -/
theorem C9_trim_both_ends (t : List Nat) (data B : List Nat) (p : Nat)
    (h : data.drop p = enc32i (t.length : Int) ++ (t ++ B)) (hp : p ≤ data.length)
    (hlen : t.length < 2 ^ 31) (hutf : isValidUtf8 t = true) :
    readToken ⟨data, p⟩ = .ok (trimNul t, ⟨data, p + 4 + t.length⟩) ∧
    ∃ a b, t = List.replicate a 0 ++ (trimNul t ++ List.replicate b 0) :=
  ⟨readToken_suffix t h hp hlen hutf, trimNul_decomp t⟩

/-- C9 witness: the token `[0, 'a', 0]` decodes to `"a"` — stripped at both
ends. -/
theorem C9_witness :
    readToken ⟨[3, 0, 0, 0, 0, 97, 0], 0⟩ = .ok ([97], ⟨[3, 0, 0, 0, 0, 97, 0], 7⟩) :=
  (C9_trim_both_ends [0, 97, 0] [3, 0, 0, 0, 0, 97, 0] [] 0
    (by decide) (by decide) (by decide) (by decide)).1

/-- C10 counterexample: the claim says that with a negative declared token
length "the subsequent exact read fails with a truncation error".  In fact
`vec![0; token_len as usize]` requests `2 ^ 64 + len > isize::MAX` bytes and
panics with "capacity overflow" before `read_exact` ever runs: on the
concrete source declaring length `-1`, the vocabulary loop aborts with the
capacity-overflow panic, not the truncated error. -/
theorem C10_counterexample :
    readTokens 1 ⟨[255, 255, 255, 255], 0⟩ = .error .capacityOverflow ∧
    readTokens 1 ⟨[255, 255, 255, 255], 0⟩ ≠ .error .truncated := by
  constructor
  · rfl
  · decide

/-- C10 (amended): a negative declared token length is never rejected as out
of range: `token_len as usize` sign-extends it to `2 ^ 64 + len` (at least
`2 ^ 31`, and above `isize::MAX`), so `vec![0; token_len as usize]` panics
with "capacity overflow" before any read — regardless of how long the source
is — and parsing never produces a token from a negative length, but by a
process abort rather than a truncation error returned to the caller. -/
theorem C10_negative_length_panics (n : Nat) (len : Int) (c c' : Cursor)
    (hn : 0 < n) (hread : readI32 c = .ok (len, c')) (hneg : len < 0) :
    (usizeOfI32 len : Int) = 2 ^ 64 + len ∧
    2 ^ 31 ≤ usizeOfI32 len ∧
    isizeMax < usizeOfI32 len ∧
    readTokens n c = .error .capacityOverflow := by
  obtain ⟨hlo, hhi⟩ := readI32_bounds c c' len hread
  have hu : (usizeOfI32 len : Int) = 2 ^ 64 + len :=
    usizeOfI32_neg len (by omega) hneg
  have hsz : isizeMax < usizeOfI32 len := by
    unfold isizeMax
    omega
  exact ⟨hu, by omega, hsz, readTokens_capacity n len c c' hn hread hsz⟩

/-- C10 witness: declared length `-1` over a 4-byte source: the cast length
is `2 ^ 64 - 1`, above `isize::MAX`, and the loop aborts with the
capacity-overflow panic. -/
theorem C10_witness :
    (usizeOfI32 (-1) : Int) = 2 ^ 64 + (-1) ∧
    2 ^ 31 ≤ usizeOfI32 (-1) ∧
    isizeMax < usizeOfI32 (-1) ∧
    readTokens 1 ⟨[255, 255, 255, 255], 0⟩ = .error .capacityOverflow :=
  C10_negative_length_panics 1 (-1) ⟨[255, 255, 255, 255], 0⟩
    ⟨[255, 255, 255, 255], 4⟩ (by decide) (by decide) (by decide)

end Bowlby
